import Mathlib

/-!
Verification model of the Alteryx-to-BigQuery conversion core
(`agent2.py`: `AlteryxToBigQueryAgent._parse_alteryx_xml`,
`_generate_sql_snippet`, `convert_alteryx_to_sql`).

The embedding works on `List Char` for the regex-based parsing and on
association lists for Python's insertion-ordered `dict`.  The external
text-generation service (`_generate_sql_snippet`) is modelled as an
oracle `Nat → String → Except String String`: call index and prompt to
either the stripped response text or the raised error's text.
-/

namespace Alteryx

abbrev Chars := List Char

/-- Index of the first occurrence of `pat` in the haystack (regex `search`
for a literal pattern). `pat` is nonempty everywhere this is used. -/
def findSubIdx (pat : Chars) : Chars → Option Nat
  | [] => if pat.isPrefixOf ([] : Chars) then some 0 else none
  | c :: rest =>
    if pat.isPrefixOf (c :: rest) then some 0
    else (findSubIdx pat rest).map (· + 1)

/-- Maximal run of ASCII digits at the head (`\d+` followed by a
non-digit literal, so maximal munch is exact). -/
def takeDigits : Chars → Chars × Chars
  | [] => ([], [])
  | c :: rest =>
    if c.isDigit then
      let p := takeDigits rest
      (c :: p.1, p.2)
    else ([], c :: rest)

/-- Maximal run of non-quote characters at the head (`[^"]+` followed by
`"`, so maximal munch is exact). -/
def takeNonQuote : Chars → Chars × Chars
  | [] => ([], [])
  | c :: rest =>
    if c = '"' then ([], c :: rest)
    else
      let p := takeNonQuote rest
      (c :: p.1, p.2)

/-- `re.finditer` for a pattern that consumes at least one character:
scan left to right, emit each leftmost match and continue right after it.
`fuel` bounds the recursion; `fuel = s.length` is always enough. -/
def scanIter {α : Type} (step : Chars → Option (α × Nat)) : Nat → Chars → List α
  | 0, _ => []
  | _ + 1, [] => []
  | fuel + 1, c :: rest =>
    match step (c :: rest) with
    | some (a, n) => a :: scanIter step fuel ((c :: rest).drop (max n 1))
    | none => scanIter step fuel rest

/-- `int(...)` on a string of ASCII digits. -/
def digitsToNat (s : Chars) : Nat :=
  s.foldl (fun n c => n * 10 + (c.toNat - 48)) 0

/-- One field entry of a Select tool: `{'name': …, 'selected': …, 'rename': …}`. -/
structure Field where
  name : String
  selected : Bool
  rename : Option String
deriving DecidableEq, Repr

/-- One parsed tool dict: `{'type': …, 'toolId': …, 'fields': …}` for Select,
`{'type': …, 'toolId': …, 'expression': …}` for Filter; both carry
`'xml_snippet'`.  A single record mirrors the duck-typed Python dict. -/
structure Tool where
  type : String
  toolId : String
  fields : List Field
  expression : Option String
  xml_snippet : String
deriving DecidableEq, Repr

def workflowOpen : Chars := "<AlteryxWorkflow>".data
def workflowClose : Chars := "</AlteryxWorkflow>".data

/-- `re.search(r"<AlteryxWorkflow>(.*?)</AlteryxWorkflow>", s, DOTALL)`:
group(1) of the leftmost match (the lazy group takes the text up to the
first closing tag after the first opening tag; if the first opening tag
has no closing tag after it, no later one has either). -/
def extractWorkflow (s : Chars) : Option Chars :=
  match findSubIdx workflowOpen s with
  | none => none
  | some p =>
    let afterOpen := s.drop (p + workflowOpen.length)
    match findSubIdx workflowClose afterOpen with
    | none => none
    | some q => some (afterOpen.take q)

def nodeHead : Chars := "<Node ToolID=\"".data
def nodeClose : Chars := "</Node>".data
def selectTypeTag : Chars := "\" Type=\"Select\">".data
def filterTypeTag : Chars := "\" Type=\"Filter\">".data

/-- Match `<Node ToolID="(\d+)" Type="<ty>">(.*?)</Node>` at the head of
`s`; returns (toolId digits, inner group, whole match group(0)). -/
def matchNodeAt (tyTag : Chars) (s : Chars) : Option (String × Chars × Chars) :=
  if nodeHead.isPrefixOf s then
    let s1 := s.drop nodeHead.length
    let p := takeDigits s1
    if p.1.isEmpty then none
    else if tyTag.isPrefixOf p.2 then
      let s3 := p.2.drop tyTag.length
      match findSubIdx nodeClose s3 with
      | none => none
      | some q =>
        let consumed := nodeHead.length + p.1.length + tyTag.length + q + nodeClose.length
        some (⟨p.1⟩, s3.take q, s.take consumed)
    else none
  else none

def fieldHead : Chars := "<Field Name=\"".data
def selectedHead : Chars := "\" Selected=\"".data
def renameHead : Chars := " Rename=\"".data
def fieldTail : Chars := " />".data

/-- Match `<Field Name="([^"]+)" Selected="([^"]+)"(?: Rename="([^"]+)")? />`
at the head of `s`; returns the field dict and the consumed length.
The optional group is greedy; since `[^"]+` is forced by the following
quote, the only backtracking point is dropping the whole group. -/
def matchFieldAt (s : Chars) : Option (Field × Nat) :=
  if fieldHead.isPrefixOf s then
    let s1 := s.drop fieldHead.length
    let pn := takeNonQuote s1
    if pn.1.isEmpty then none
    else if selectedHead.isPrefixOf pn.2 then
      let s3 := pn.2.drop selectedHead.length
      let ps := takeNonQuote s3
      if ps.1.isEmpty then none
      else
        match ps.2 with
        | '"' :: s5 =>
          let mkField : Option String → Field := fun rn =>
            { name := ⟨pn.1⟩
              selected := decide ((⟨ps.1⟩ : String) = "True")
              rename := rn }
          let withRename : Option (Field × Nat) :=
            if renameHead.isPrefixOf s5 then
              let s6 := s5.drop renameHead.length
              let pr := takeNonQuote s6
              if pr.1.isEmpty then none
              else
                match pr.2 with
                | '"' :: s8 =>
                  if fieldTail.isPrefixOf s8 then
                    some (mkField (some ⟨pr.1⟩),
                      s.length - (s8.drop fieldTail.length).length)
                  else none
                | _ => none
            else none
          match withRename with
          | some r => some r
          | none =>
            if fieldTail.isPrefixOf s5 then
              some (mkField none, s.length - (s5.drop fieldTail.length).length)
            else none
        | _ => none
    else none
  else none

/-- The field scan over a Select node's inner XML. -/
def parseFields (inner : Chars) : List Field :=
  scanIter matchFieldAt inner.length inner

/-- One finditer step for Select nodes (the parsed dict plus consumed length). -/
def selectStep (s : Chars) : Option (Tool × Nat) :=
  match matchNodeAt selectTypeTag s with
  | none => none
  | some (tid, inner, whole) =>
    some ({ type := "Select", toolId := tid, fields := parseFields inner,
            expression := none, xml_snippet := ⟨whole⟩ }, whole.length)

def exprOpen : Chars := "<Expression>".data
def exprClose : Chars := "</Expression>".data

/-- `re.search(r"<Expression>(.*?)</Expression>", config, DOTALL)`:
group(1) of the leftmost match, which may be the empty string. -/
def parseExpr (inner : Chars) : Option String :=
  match findSubIdx exprOpen inner with
  | none => none
  | some p =>
    let after := inner.drop (p + exprOpen.length)
    match findSubIdx exprClose after with
    | none => none
    | some q => some ⟨after.take q⟩

/-- One finditer step for Filter nodes. -/
def filterStep (s : Chars) : Option (Tool × Nat) :=
  match matchNodeAt filterTypeTag s with
  | none => none
  | some (tid, inner, whole) =>
    some ({ type := "Filter", toolId := tid, fields := [],
            expression := parseExpr inner, xml_snippet := ⟨whole⟩ }, whole.length)

/-- `key=lambda x: int(x['toolId'])`: the sort key of a parsed tool. -/
def toolKey (t : Tool) : Nat := digitsToNat t.toolId.data

/-- The order used by `tools.sort(key=lambda x: int(x['toolId']))`. -/
def toolR (a b : Tool) : Prop := toolKey a ≤ toolKey b

instance : DecidableRel toolR := fun a b => Nat.decLe (toolKey a) (toolKey b)

instance : IsTotal Tool toolR := ⟨fun a b => Nat.le_total (toolKey a) (toolKey b)⟩

instance : IsTrans Tool toolR := ⟨fun _ _ _ h1 h2 => Nat.le_trans h1 h2⟩

def invalidXmlMsg : String :=
  "Error: Invalid Alteryx Workflow XML structure. Please ensure it's wrapped in <AlteryxWorkflow> tags."

def noToolsMsg : String :=
  "No recognizable 'Select' or 'Filter' tools found in the provided XML. I can only process these for now."

def parsedOkMsg : String := "XML parsed successfully. Beginning conversion..."

/-- `AlteryxToBigQueryAgent._parse_alteryx_xml`. -/
def parse_alteryx_xml (xml : String) : List Tool × String :=
  match extractWorkflow xml.data with
  | none => ([], invalidXmlMsg)
  | some inner =>
    if inner.isEmpty then ([], invalidXmlMsg)
    else
      let selects := scanIter selectStep inner.length inner
      let filters := scanIter filterStep inner.length inner
      let tools := List.insertionSort toolR (selects ++ filters)
      if tools.isEmpty then (tools, noToolsMsg) else (tools, parsedOkMsg)

/-! ### Schema model (Python `dict`, insertion-ordered) -/

abbrev Schema := List (String × String)

/-- `d[k] = v` on an insertion-ordered dict: an existing key keeps its
position and gets the new value; a new key is appended at the end. -/
def dictInsert : Schema → String → String → Schema
  | [], k, v => [(k, v)]
  | (k', v') :: rest, k, v =>
    if k' = k then (k, v) :: rest else (k', v') :: dictInsert rest k v

/-- `d.get(k, dflt)`. -/
def dictGet (schema : Schema) (k dflt : String) : String :=
  match schema.find? (fun p => p.1 == k) with
  | some p => p.2
  | none => dflt

def keys (schema : Schema) : List String := schema.map Prod.fst

/-- `d.get(k)` as an option (specification-side view of `dictGet`). -/
def lookup (schema : Schema) (k : String) : Option String :=
  (schema.find? (fun p => p.1 == k)).map Prod.snd

/-- `f['rename'] if f['rename'] else f['name']` (Python truthiness: the
empty string also falls back to the original name). -/
def outName (f : Field) : String :=
  match f.rename with
  | some r => if r.isEmpty then f.name else r
  | none => f.name

/-- The dict entry one selected field contributes. -/
def projEntry (schema : Schema) (f : Field) : String × String :=
  (outName f, dictGet schema f.name "UNKNOWN")

/-- `step_output_schema[output_name] = current_schema.get(f['name'], 'UNKNOWN')`. -/
def projIns (schema acc : Schema) (f : Field) : Schema :=
  dictInsert acc (outName f) (dictGet schema f.name "UNKNOWN")

/-- The Select branch's schema derivation (lines 118-123 of `agent2.py`):
keep only selected fields, key each by rename-or-name, look the type up
by the original name, defaulting to `UNKNOWN`. -/
def project (schema : Schema) (fields : List Field) : Schema :=
  (fields.filter (·.selected)).foldl (projIns schema) []

def seedSchema : Schema :=
  [("OrderID", "STRING"), ("CustomerName", "STRING"),
   ("ProductCategory", "STRING"), ("SalesAmount", "FLOAT")]

/-! ### Decimal printing of the CTE index (`f"cte_{i + 1}"`) -/

def natReprAux : Nat → Nat → Chars
  | 0, _ => []
  | fuel + 1, n =>
    if n < 10 then [Nat.digitChar n]
    else natReprAux fuel (n / 10) ++ [Nat.digitChar (n % 10)]

/-- The decimal digits of `n` (`fuel = n + 1` always suffices, since the
recursion divides by ten). -/
def natReprChars (n : Nat) : Chars := natReprAux (n + 1) n

def natRepr (n : Nat) : String := ⟨natReprChars n⟩

def cteNameFor (i : Nat) : String := "cte_" ++ natRepr (i + 1)

/-! ### Prompts and narrative messages -/

/-- `json.dumps(schema, indent=2)` for the schemas that occur here
(plain names and types, no JSON escaping needed). -/
def dumpsSchema : Schema → String
  | [] => "\x7b\x7d"
  | ps => "\x7b\n" ++
      String.intercalate ",\n"
        (ps.map fun p => "  \"" ++ p.1 ++ "\": \"" ++ p.2 ++ "\"") ++
      "\n\x7d"

def selectPrompt (cte : String) (schema : Schema) (snippet : String) : String :=
  "\nYou are an expert Alteryx to BigQuery SQL converter.\nTranslate the following Alteryx Select tool logic into a BigQuery SQL SELECT statement.\nThe input data comes from a CTE named `" ++
  cte ++ "` with the following schema:\n" ++ dumpsSchema schema ++
  "\n\nAlteryx Select Tool Configuration (XML snippet):\n" ++ snippet ++
  "\n\nGenerate only the BigQuery SQL SELECT statement. Do not include any explanations or extra text.\nEnsure all selected columns are present in the output.\n"

def filterPrompt (cte : String) (schema : Schema) (snippet : String) : String :=
  "\nYou are an expert Alteryx to BigQuery SQL converter.\nTranslate the following Alteryx Filter tool logic into a BigQuery SQL WHERE clause.\nThe input data comes from a CTE named `" ++
  cte ++ "` with the following schema:\n" ++ dumpsSchema schema ++
  "\n\nAlteryx Filter Tool Configuration (XML snippet):\n" ++ snippet ++
  "\n\nGenerate only the BigQuery SQL WHERE clause, including the 'WHERE' keyword. Do not include any explanations or extra text.\n"

def selectToolMsg (tid : String) : String :=
  "Agent: Processing Select Tool (ID: " ++ tid ++ ")..."

def filterToolMsg (tid : String) : String :=
  "Agent: Processing Filter Tool (ID: " ++ tid ++ ")..."

def unsupportedMsg (t : Tool) : String :=
  "Agent: I'm sorry, I don't recognize or support the Alteryx tool type: '" ++
  t.type ++ "' (ToolID: " ++ t.toolId ++
  ") yet. I can only convert 'Select' and 'Filter' tools."

def genFailMsg (tid err : String) : String :=
  "Agent: Failed to generate SQL for ToolID " ++ tid ++ ". Error: " ++ err

def doneMsg : String :=
  "Agent: Conversion completed successfully! Please review the generated SQL."

def noStepsGeneratedMsg : String :=
  "Agent: I processed the XML but couldn't generate any SQL steps. Please check your XML content."

/-! ### The conversion loop -/

/-- The generation service, one oracle response per call: call index and
prompt to either the stripped response text or the raised error text. -/
abbrev GenOracle := Nat → String → Except String String

/-- `current_schema`, `current_cte_name`, `sql_steps`, `agent_messages`
threaded through the loop.  `final_output_schema` is assigned together
with `current_schema` on every iteration, so a single field models both. -/
structure ConvState where
  schema : Schema
  cteName : String
  sqlSteps : List String
  messages : List String
deriving DecidableEq, Repr

def selectStepSql (nextCte snippetSql prevCte : String) : String :=
  "WITH " ++ nextCte ++ " AS (\n" ++ snippetSql ++ "\nFROM " ++ prevCte ++ "\n)"

def filterStepSql (nextCte cols prevCte snippetSql : String) : String :=
  "WITH " ++ nextCte ++ " AS (\nSELECT\n    " ++ cols ++ "\nFROM " ++
  prevCte ++ "\n" ++ snippetSql ++ "\n)"

/-- One iteration of the `for i, tool in enumerate(tools)` loop
(lines 113-179 of `agent2.py`); an `error` value is the early-returned
result dict. -/
def processTool (gen : GenOracle) (i : Nat) (tool : Tool) (st : ConvState) :
    Except (String × String) ConvState :=
  if tool.type = "Select" then
    let stepOutputSchema := project st.schema tool.fields
    let prompt := selectPrompt st.cteName st.schema tool.xml_snippet
    let msgs := st.messages ++ [selectToolMsg tool.toolId]
    match gen i prompt with
    | .error e => .error ("", genFailMsg tool.toolId e)
    | .ok snippetSql =>
      let nextCte := cteNameFor i
      .ok ⟨stepOutputSchema, nextCte,
           st.sqlSteps ++ [selectStepSql nextCte snippetSql st.cteName], msgs⟩
  else if tool.type = "Filter" then
    let prompt := filterPrompt st.cteName st.schema tool.xml_snippet
    let msgs := st.messages ++ [filterToolMsg tool.toolId]
    match gen i prompt with
    | .error e => .error ("", genFailMsg tool.toolId e)
    | .ok snippetSql =>
      let nextCte := cteNameFor i
      let cols := String.intercalate ", " (keys st.schema)
      .ok ⟨st.schema, nextCte,
           st.sqlSteps ++ [filterStepSql nextCte cols st.cteName snippetSql], msgs⟩
  else
    .error ("", unsupportedMsg tool)

def runTools (gen : GenOracle) : List Tool → Nat → ConvState →
    Except (String × String) ConvState
  | [], _, st => .ok st
  | t :: ts, i, st =>
    match processTool gen i t st with
    | .error r => .error r
    | .ok st' => runTools gen ts (i + 1) st'

/-! ### Final assembly -/

def sourcePat : Chars := "FROM source_data".data

def sourceRepl : Chars := "FROM `your_project.your_dataset.your_initial_table`".data

def replaceSourceAux : Nat → Chars → Chars
  | 0, s => s
  | _ + 1, [] => []
  | fuel + 1, c :: rest =>
    if sourcePat.isPrefixOf (c :: rest) then
      sourceRepl ++ replaceSourceAux fuel ((c :: rest).drop sourcePat.length)
    else c :: replaceSourceAux fuel rest

/-- `str.replace("FROM source_data", "FROM `…initial_table`")`: replace
every leftmost non-overlapping occurrence, continuing after the
replacement (`fuel = s.length` suffices: every step consumes at least
one character). -/
def replaceSource (s : Chars) : Chars := replaceSourceAux s.length s

def viewHeader : String :=
  "\nCREATE OR REPLACE VIEW `your_project.your_dataset.your_view_name` AS\n"

/-- Lines 182-203 of `agent2.py`: join the per-step CTE texts, substitute
the placeholder source table, and wrap in the view statement.  At this
point `final_output_schema` equals `current_schema` (both are assigned on
every completed iteration), so `st.schema` stands for both. -/
def assemble (st : ConvState) : String × String :=
  if st.sqlSteps.isEmpty then
    ("", String.intercalate "\n" (st.messages ++ [noStepsGeneratedMsg]))
  else
    let joined := String.intercalate "\n\n" st.sqlSteps
    let finalSelectCols := String.intercalate ", " (keys st.schema)
    let replaced : String := ⟨replaceSource joined.data⟩
    let finalSql := viewHeader ++ replaced ++ "\n\nSELECT\n    " ++
      finalSelectCols ++ "\nFROM\n    " ++ st.cteName ++ ";\n"
    (finalSql, String.intercalate "\n" (st.messages ++ [doneMsg]))

def initState (parseMessage : String) : ConvState :=
  ⟨seedSchema, "source_data", [], [parseMessage]⟩

/-- `convert_alteryx_to_sql`, generalized to a per-call oracle. -/
def convertOracle (gen : GenOracle) (xml : String) : String × String :=
  let parsed := parse_alteryx_xml xml
  if parsed.1.isEmpty then ("", parsed.2)
  else
    match runTools gen parsed.1 0 (initState parsed.2) with
    | .error r => r
    | .ok st => assemble st

/-- `AlteryxToBigQueryAgent.convert_alteryx_to_sql`, with the generation
service as a function from prompt to response-or-error. -/
def convert_alteryx_to_sql (gen : String → Except String String) (xml : String) :
    String × String :=
  convertOracle (fun _ p => gen p) xml

/-- The prompt the loop sends to the generation service for a supported
tool in state `st`. -/
def promptOf (t : Tool) (st : ConvState) : String :=
  if t.type = "Select" then selectPrompt st.cteName st.schema t.xml_snippet
  else filterPrompt st.cteName st.schema t.xml_snippet

/-- The fixed leading text of the `i`-th emitted CTE. -/
def stepHeader (i : Nat) : String := "WITH " ++ cteNameFor i ++ " AS ("

/-- Substring occurrence test (for statements about the emitted script). -/
def occursIn (pat : Chars) : Chars → Bool
  | [] => pat.isPrefixOf ([] : Chars)
  | c :: rest => pat.isPrefixOf (c :: rest) || occursIn pat rest

/-! ## Dictionary lemmas -/

theorem keys_cons (k' v' : String) (rest : Schema) :
    keys ((k', v') :: rest) = k' :: keys rest := rfl

theorem lookup_cons (k' v' : String) (rest : Schema) (n : String) :
    lookup ((k', v') :: rest) n = if k' = n then some v' else lookup rest n := by
  by_cases h : k' = n
  · simp [lookup, List.find?_cons, h]
  · simp [lookup, List.find?_cons, h]

theorem dictInsert_of_not_mem {s : Schema} {k : String} (v : String) (h : k ∉ keys s) :
    dictInsert s k v = s ++ [(k, v)] := by
  induction s with
  | nil => rfl
  | cons p rest ih =>
    obtain ⟨k', v'⟩ := p
    rw [keys_cons, List.mem_cons] at h
    push_neg at h
    have hne : ¬ (k' = k) := fun hk => h.1 hk.symm
    rw [show dictInsert ((k', v') :: rest) k v = (k', v') :: dictInsert rest k v by
      simp [dictInsert, hne]]
    rw [ih h.2, List.cons_append]

theorem keys_dictInsert (s : Schema) (k v : String) :
    keys (dictInsert s k v) = if k ∈ keys s then keys s else keys s ++ [k] := by
  induction s with
  | nil => simp [dictInsert, keys]
  | cons p rest ih =>
    obtain ⟨k', v'⟩ := p
    by_cases hk : k' = k
    · subst hk
      rw [show dictInsert ((k', v') :: rest) k' v = (k', v) :: rest by simp [dictInsert]]
      rw [keys_cons, keys_cons, if_pos (List.mem_cons_self _ _)]
    · rw [show dictInsert ((k', v') :: rest) k v = (k', v') :: dictInsert rest k v by
        simp [dictInsert, hk]]
      rw [keys_cons, keys_cons, ih]
      by_cases hmem : k ∈ keys rest
      · rw [if_pos hmem, if_pos (List.mem_cons_of_mem _ hmem)]
      · have hne : ¬ k ∈ k' :: keys rest := by
          rw [List.mem_cons]
          push_neg
          exact ⟨fun hc => hk hc.symm, hmem⟩
        rw [if_neg hmem, if_neg hne, List.cons_append]

theorem mem_keys_dictInsert {s : Schema} {k v n : String} :
    n ∈ keys (dictInsert s k v) ↔ n ∈ keys s ∨ n = k := by
  rw [keys_dictInsert]
  by_cases hk : k ∈ keys s
  · simp only [if_pos hk]
    constructor
    · exact Or.inl
    · rintro (h | rfl)
      · exact h
      · exact hk
  · simp [if_neg hk]

theorem nodup_keys_dictInsert {s : Schema} (k v : String) (h : (keys s).Nodup) :
    (keys (dictInsert s k v)).Nodup := by
  rw [keys_dictInsert]
  by_cases hk : k ∈ keys s
  · simpa [if_pos hk]
  · simp [if_neg hk, List.nodup_append, h, hk]

theorem lookup_dictInsert (s : Schema) (k v n : String) :
    lookup (dictInsert s k v) n = if n = k then some v else lookup s n := by
  induction s with
  | nil =>
    rw [show dictInsert [] k v = [(k, v)] from rfl, lookup_cons]
    by_cases h : n = k
    · rw [if_pos h.symm, if_pos h]
    · rw [if_neg (fun hc => h hc.symm), if_neg h]
  | cons p rest ih =>
    obtain ⟨k', v'⟩ := p
    by_cases hk : k' = k
    · subst hk
      rw [show dictInsert ((k', v') :: rest) k' v = (k', v) :: rest by simp [dictInsert]]
      rw [lookup_cons, lookup_cons]
      by_cases h : n = k'
      · subst h
        simp
      · have h2 : ¬ (k' = n) := fun hc => h hc.symm
        simp [h, h2]
    · rw [show dictInsert ((k', v') :: rest) k v = (k', v') :: dictInsert rest k v by
        simp [dictInsert, hk]]
      rw [lookup_cons, lookup_cons, ih]
      by_cases h : k' = n
      · have hnk : ¬ (n = k) := fun hc => hk (h.trans hc)
        simp [h, hnk]
      · simp [h]

/-! ## Projection lemmas -/

theorem foldl_projIns_of_nodup (schema : Schema) :
    ∀ (fs : List Field) (acc : Schema),
      (keys acc ++ fs.map outName).Nodup →
      fs.foldl (projIns schema) acc = acc ++ fs.map (projEntry schema)
  | [], acc, _ => by simp
  | f :: fs, acc, h => by
    have hsplit := List.nodup_append.mp h
    have hnot : outName f ∉ keys acc :=
      fun hmem => hsplit.2.2 hmem (List.mem_cons_self _ _)
    have hins : projIns schema acc f = acc ++ [projEntry schema f] :=
      dictInsert_of_not_mem _ hnot
    have hkeys : keys (acc ++ [projEntry schema f]) = keys acc ++ [outName f] := by
      simp [keys, projEntry]
    have h2 : (keys (acc ++ [projEntry schema f]) ++ fs.map outName).Nodup := by
      rw [hkeys, List.append_assoc]
      simpa using h
    calc (f :: fs).foldl (projIns schema) acc
        = fs.foldl (projIns schema) (acc ++ [projEntry schema f]) := by
          rw [List.foldl_cons, hins]
      _ = acc ++ [projEntry schema f] ++ fs.map (projEntry schema) :=
          foldl_projIns_of_nodup schema fs _ h2
      _ = acc ++ (f :: fs).map (projEntry schema) := by simp

theorem nodup_keys_foldl_projIns (schema : Schema) :
    ∀ (fs : List Field) (acc : Schema),
      (keys acc).Nodup → (keys (fs.foldl (projIns schema) acc)).Nodup
  | [], _, h => h
  | _ :: fs, _, h =>
    nodup_keys_foldl_projIns schema fs _ (nodup_keys_dictInsert _ _ h)

theorem mem_keys_foldl_projIns (schema : Schema) :
    ∀ (fs : List Field) (acc : Schema) (n : String),
      n ∈ keys (fs.foldl (projIns schema) acc) ↔ n ∈ keys acc ∨ n ∈ fs.map outName
  | [], acc, n => by simp
  | f :: fs, acc, n => by
    rw [List.foldl_cons]
    rw [mem_keys_foldl_projIns schema fs _ n]
    simp only [projIns, mem_keys_dictInsert, List.map_cons, List.mem_cons]
    tauto

theorem lookup_foldl_projIns (schema : Schema) (fs : List Field) :
    ∀ (acc : Schema) (n : String),
      lookup (fs.foldl (projIns schema) acc) n =
        ((fs.filter (fun f => outName f = n)).getLast?).elim (lookup acc n)
          (fun f => some (dictGet schema f.name "UNKNOWN")) := by
  induction fs using List.reverseRecOn with
  | nil => intro acc n; simp
  | append_singleton fs f ih =>
    intro acc n
    rw [List.foldl_append, List.foldl_cons, List.foldl_nil]
    show lookup (projIns schema (fs.foldl (projIns schema) acc) f) n = _
    rw [projIns, lookup_dictInsert, List.filter_append]
    by_cases h : outName f = n
    · have hsing : List.filter (fun g => outName g = n) [f] = [f] := by simp [h]
      rw [hsing, List.getLast?_concat, if_pos h.symm, Option.elim]
    · have hsing : List.filter (fun g => outName g = n) [f] = [] := by simp [h]
      rw [hsing, List.append_nil, if_neg (fun hc => h hc.symm), ih]

theorem keys_length (s : Schema) : (keys s).length = s.length := by
  simp [keys]

/-- Keys of a projection, as a finite set, are the selected output names. -/
theorem toFinset_keys_project (schema : Schema) (fields : List Field) :
    (keys (project schema fields)).toFinset =
      ((fields.filter (·.selected)).map outName).toFinset := by
  ext n
  simp only [List.mem_toFinset]
  rw [project, mem_keys_foldl_projIns]
  simp [keys]

theorem length_project (schema : Schema) (fields : List Field) :
    (project schema fields).length =
      ((fields.filter (·.selected)).map outName).dedup.length := by
  have h1 : (keys (project schema fields)).Nodup :=
    nodup_keys_foldl_projIns schema _ [] (by simp [keys])
  calc (project schema fields).length
      = (keys (project schema fields)).length := (keys_length _).symm
    _ = (keys (project schema fields)).toFinset.card :=
        (List.toFinset_card_of_nodup h1).symm
    _ = ((fields.filter (·.selected)).map outName).toFinset.card := by
        rw [toFinset_keys_project]
    _ = ((fields.filter (·.selected)).map outName).dedup.length := by
        rw [List.card_toFinset]

/-! ## Claim theorems: the Schema Model -/

/-- C1 (amended): `project` returns, in selection order, one entry per
selected field — keyed by the rename if present else the original name,
typed by looking the original name up in the input schema with default
`UNKNOWN`, unselected fields contributing nothing — provided the output
names of the selected fields are pairwise distinct.  (Without that
proviso, duplicate output names collapse into one dict entry; see the
counterexample.)  In particular the fixed scenario — a Projection
selecting `OrderID→transaction_id` and `SalesAmount→total_sales` from
the seed schema — produces `{transaction_id: STRING, total_sales: FLOAT}`. -/
theorem C1_project_characterization :
    (∀ (schema : Schema) (fields : List Field),
        ((fields.filter (·.selected)).map outName).Nodup →
        project schema fields = (fields.filter (·.selected)).map (projEntry schema)) ∧
    project seedSchema
      [⟨"OrderID", true, some "transaction_id"⟩, ⟨"CustomerName", false, none⟩,
       ⟨"ProductCategory", false, none⟩, ⟨"SalesAmount", true, some "total_sales"⟩] =
      [("transaction_id", "STRING"), ("total_sales", "FLOAT")] := by
  constructor
  · intro schema fields h
    have := foldl_projIns_of_nodup schema (fields.filter (·.selected)) []
      (by simpa [keys] using h)
    simpa [project] using this
  · decide

/-- C1, counterexample to the claim as stated: with two selected fields
sharing an output name, the projected schema does not contain one entry
per selected field (the dict collapses the duplicate key). -/
theorem C1_counterexample :
    project seedSchema [⟨"OrderID", true, none⟩, ⟨"OrderID", true, none⟩] ≠
      List.map (projEntry seedSchema)
        (List.filter (fun f : Field => f.selected)
          [⟨"OrderID", true, none⟩, ⟨"OrderID", true, none⟩]) := by
  decide

/-- C1 witness: the characterization applied at a concrete projection
with pairwise-distinct output names. -/
theorem C1_witness :
    project [("A", "STRING")] [⟨"A", true, none⟩] = [("A", "STRING")] := by
  have h := C1_project_characterization.1 [("A", "STRING")] [⟨"A", true, none⟩] (by decide)
  exact h.trans (by decide)

/-- C10: duplicate output names in a Projection collapse into a single
dict entry whose type comes from the last selected field with that output
name; the projected schema's keys are exactly the selected output names
without duplicates, its size is at most the number of selected fields,
with equality exactly when the selected output names are pairwise
distinct. -/
theorem C10_project_duplicates (schema : Schema) (fields : List Field) :
    (keys (project schema fields)).Nodup ∧
    (∀ n, n ∈ keys (project schema fields) ↔
      n ∈ (fields.filter (·.selected)).map outName) ∧
    (∀ n, lookup (project schema fields) n =
      (((fields.filter (·.selected)).filter (fun f => outName f = n)).getLast?).map
        (fun f => dictGet schema f.name "UNKNOWN")) ∧
    (project schema fields).length ≤ (fields.filter (·.selected)).length ∧
    ((project schema fields).length = (fields.filter (·.selected)).length ↔
      ((fields.filter (·.selected)).map outName).Nodup) := by
  refine ⟨nodup_keys_foldl_projIns schema _ [] (by simp [keys]), fun n => ?_, fun n => ?_,
    ?_, ?_⟩
  · rw [project, mem_keys_foldl_projIns]
    simp [keys]
  · rw [project, lookup_foldl_projIns]
    cases ((fields.filter (·.selected)).filter (fun f => outName f = n)).getLast? with
    | none => simp [lookup]
    | some f => simp
  · rw [length_project]
    calc ((fields.filter (·.selected)).map outName).dedup.length
        ≤ ((fields.filter (·.selected)).map outName).length :=
          (List.dedup_sublist _).length_le
      _ = (fields.filter (·.selected)).length := List.length_map _ _
  · rw [length_project]
    constructor
    · intro h
      have hlen : ((fields.filter (·.selected)).map outName).dedup.length =
          ((fields.filter (·.selected)).map outName).length := by
        rw [h, List.length_map]
      have := (List.dedup_sublist ((fields.filter (·.selected)).map outName)).eq_of_length hlen
      rw [← List.dedup_eq_self]
      exact this
    · intro h
      rw [List.dedup_eq_self.mpr h, List.length_map]

/-! ## Decimal CTE names -/

theorem digitsToNat_concat (a : Chars) (c : Char) :
    digitsToNat (a ++ [c]) = digitsToNat a * 10 + (c.toNat - 48) := by
  simp [digitsToNat, List.foldl_append]

theorem digitChar_toNat : ∀ d, d < 10 → (Nat.digitChar d).toNat = 48 + d := by
  decide

theorem digitsToNat_natReprAux :
    ∀ (fuel n : Nat), n < fuel → digitsToNat (natReprAux fuel n) = n
  | 0, n, h => absurd h (Nat.not_lt_zero n)
  | fuel + 1, n, h => by
    rw [natReprAux]
    by_cases h10 : n < 10
    · rw [if_pos h10]
      have : digitsToNat [Nat.digitChar n] = (Nat.digitChar n).toNat - 48 := by
        simp [digitsToNat]
      rw [this, digitChar_toNat n h10]
      omega
    · rw [if_neg h10]
      have hdiv : n / 10 < fuel := by
        have h1 : n / 10 < n := Nat.div_lt_self (by omega) (by omega)
        omega
      rw [digitsToNat_concat, digitsToNat_natReprAux fuel (n / 10) hdiv,
        digitChar_toNat _ (Nat.mod_lt _ (by omega))]
      omega

theorem digitsToNat_natRepr (n : Nat) : digitsToNat (natRepr n).data = n :=
  digitsToNat_natReprAux (n + 1) n (Nat.lt_succ_self n)

theorem natRepr_injective : Function.Injective natRepr := by
  intro a b h
  have h2 : digitsToNat (natRepr a).data = digitsToNat (natRepr b).data := by rw [h]
  rwa [digitsToNat_natRepr, digitsToNat_natRepr] at h2

theorem cteNameFor_injective : Function.Injective cteNameFor := by
  intro a b h
  have hd : ("cte_" ++ natRepr (a + 1)).data = ("cte_" ++ natRepr (b + 1)).data := by
    have := congrArg String.data h
    simpa [cteNameFor] using this
  rw [String.data_append, String.data_append] at hd
  have hrepr : (natRepr (a + 1)).data = (natRepr (b + 1)).data :=
    List.append_cancel_left hd
  have : a + 1 = b + 1 := natRepr_injective (congrArg String.mk hrepr)
  omega

theorem cteNameFor_ne_source (i : Nat) : cteNameFor i ≠ "source_data" := by
  intro h
  have h1 : (cteNameFor i).data.take 4 = "cte_".data := by
    show (("cte_" ++ natRepr (i + 1)).data).take 4 = "cte_".data
    rw [String.data_append]
    rw [List.take_append_of_le_length (by decide)]
    decide
  rw [h] at h1
  exact absurd h1 (by decide)

/-! ## Loop-step lemmas -/

theorem processTool_unsupported (gen : GenOracle) (i : Nat) (t : Tool) (st : ConvState)
    (h1 : ¬ t.type = "Select") (h2 : ¬ t.type = "Filter") :
    processTool gen i t st = .error ("", unsupportedMsg t) := by
  rw [processTool, if_neg h1, if_neg h2]

theorem processTool_select_ok {gen : GenOracle} {i : Nat} {t : Tool} {st : ConvState}
    {snip : String} (ht : t.type = "Select")
    (hg : gen i (selectPrompt st.cteName st.schema t.xml_snippet) = .ok snip) :
    processTool gen i t st = .ok
      ⟨project st.schema t.fields, cteNameFor i,
       st.sqlSteps ++ [selectStepSql (cteNameFor i) snip st.cteName],
       st.messages ++ [selectToolMsg t.toolId]⟩ := by
  simp [processTool, ht, hg]

theorem processTool_filter_ok {gen : GenOracle} {i : Nat} {t : Tool} {st : ConvState}
    {snip : String} (ht : t.type = "Filter")
    (hg : gen i (filterPrompt st.cteName st.schema t.xml_snippet) = .ok snip) :
    processTool gen i t st = .ok
      ⟨st.schema, cteNameFor i,
       st.sqlSteps ++ [filterStepSql (cteNameFor i)
         (String.intercalate ", " (keys st.schema)) st.cteName snip],
       st.messages ++ [filterToolMsg t.toolId]⟩ := by
  simp [processTool, ht, hg]

theorem processTool_gen_error {gen : GenOracle} {i : Nat} {t : Tool} {st : ConvState}
    {e : String} (ht : t.type = "Select" ∨ t.type = "Filter")
    (hg : gen i (promptOf t st) = .error e) :
    processTool gen i t st = .error ("", genFailMsg t.toolId e) := by
  rcases ht with ht | ht
  · rw [promptOf, if_pos ht] at hg
    simp [processTool, ht, hg]
  · by_cases hsel : t.type = "Select"
    · rw [hsel] at ht
      exact absurd ht (by decide)
    · rw [promptOf, if_neg hsel] at hg
      simp [processTool, ht, hsel, hg]

theorem processTool_ok_type {gen : GenOracle} {i : Nat} {t : Tool} {st st' : ConvState}
    (h : processTool gen i t st = .ok st') :
    t.type = "Select" ∨ t.type = "Filter" := by
  by_cases h1 : t.type = "Select"
  · exact Or.inl h1
  by_cases h2 : t.type = "Filter"
  · exact Or.inr h2
  rw [processTool_unsupported gen i t st h1 h2] at h
  simp at h

theorem processTool_ok_step {gen : GenOracle} {i : Nat} {t : Tool} {st st' : ConvState}
    (h : processTool gen i t st = .ok st') :
    ∃ s0, st'.sqlSteps = st.sqlSteps ++ [s0] ∧ (stepHeader i).data <+: s0.data := by
  rcases processTool_ok_type h with ht | ht
  · cases hg : gen i (selectPrompt st.cteName st.schema t.xml_snippet) with
    | error e =>
      rw [processTool_gen_error (Or.inl ht) (by rw [promptOf, if_pos ht]; exact hg)] at h
      simp at h
    | ok snip =>
      rw [processTool_select_ok ht hg] at h
      cases h
      refine ⟨selectStepSql (cteNameFor i) snip st.cteName, rfl, ?_⟩
      show (stepHeader i).data <+: (selectStepSql (cteNameFor i) snip st.cteName).data
      rw [stepHeader, selectStepSql]
      simp only [String.data_append]
      rw [show ([' ', 'A', 'S', ' ', '(', '\n'] : Chars) =
        [' ', 'A', 'S', ' ', '('] ++ ['\n'] from rfl]
      simp only [List.append_assoc]
      exact (List.prefix_append_right_inj _).mpr
        ((List.prefix_append_right_inj _).mpr (List.prefix_append _ _))
  · cases hg : gen i (filterPrompt st.cteName st.schema t.xml_snippet) with
    | error e =>
      have hns : ¬ t.type = "Select" := by rw [ht]; decide
      rw [processTool_gen_error (Or.inr ht) (by rw [promptOf, if_neg hns]; exact hg)] at h
      simp at h
    | ok snip =>
      rw [processTool_filter_ok ht hg] at h
      cases h
      refine ⟨filterStepSql (cteNameFor i)
        (String.intercalate ", " (keys st.schema)) st.cteName snip, rfl, ?_⟩
      show (stepHeader i).data <+:
        (filterStepSql (cteNameFor i) (String.intercalate ", " (keys st.schema))
          st.cteName snip).data
      rw [stepHeader, filterStepSql]
      simp only [String.data_append]
      rw [show ([' ', 'A', 'S', ' ', '(', '\n', 'S', 'E', 'L', 'E', 'C', 'T', '\n',
          ' ', ' ', ' ', ' '] : Chars) =
        [' ', 'A', 'S', ' ', '('] ++ ['\n', 'S', 'E', 'L', 'E', 'C', 'T', '\n',
          ' ', ' ', ' ', ' '] from rfl]
      simp only [List.append_assoc]
      exact (List.prefix_append_right_inj _).mpr
        ((List.prefix_append_right_inj _).mpr (List.prefix_append _ _))

/-! ## Loop lemmas -/

theorem runTools_cons (gen : GenOracle) (t : Tool) (ts : List Tool) (i : Nat)
    (st : ConvState) :
    runTools gen (t :: ts) i st =
      match processTool gen i t st with
      | .error r => .error r
      | .ok st' => runTools gen ts (i + 1) st' := rfl

theorem runTools_append (gen : GenOracle) (l1 l2 : List Tool) :
    ∀ (i : Nat) (st : ConvState),
      runTools gen (l1 ++ l2) i st =
        match runTools gen l1 i st with
        | .error r => .error r
        | .ok st' => runTools gen l2 (i + l1.length) st' := by
  induction l1 with
  | nil => intro i st; simp [runTools]
  | cons t ts ih =>
    intro i st
    rw [List.cons_append, runTools, runTools]
    cases hp : processTool gen i t st with
    | error r => rfl
    | ok st1 =>
      show runTools gen (ts ++ l2) (i + 1) st1 =
        match runTools gen ts (i + 1) st1 with
        | .error r => .error r
        | .ok st' => runTools gen l2 (i + (ts.length + 1)) st'
      rw [ih (i + 1) st1]
      have harith : i + 1 + ts.length = i + (ts.length + 1) := by omega
      rw [harith]

theorem runTools_ok_sqlSteps (gen : GenOracle) :
    ∀ (ts : List Tool) (i : Nat) (st st' : ConvState),
      runTools gen ts i st = .ok st' →
      ∃ news : List String,
        st'.sqlSteps = st.sqlSteps ++ news ∧
        news.length = ts.length ∧
        ∀ j s, news[j]? = some s → (stepHeader (i + j)).data <+: s.data
  | [], i, st, st', h => by
    rw [show runTools gen [] i st = .ok st from rfl] at h
    cases h
    exact ⟨[], by simp, rfl, by intro j s hs; simp at hs⟩
  | t :: ts, i, st, st', h => by
    rw [runTools] at h
    cases hp : processTool gen i t st with
    | error r => rw [hp] at h; simp at h
    | ok st1 =>
      rw [hp] at h
      obtain ⟨news, hsteps, hlen, hpre⟩ := runTools_ok_sqlSteps gen ts (i + 1) st1 st' h
      obtain ⟨s0, hs0, hhead⟩ := processTool_ok_step hp
      refine ⟨s0 :: news, ?_, by simp [hlen], ?_⟩
      · rw [hsteps, hs0, List.append_assoc, List.singleton_append]
      · intro j s hs
        cases j with
        | zero =>
          simp only [List.getElem?_cons_zero, Option.some.injEq] at hs
          rw [← hs, Nat.add_zero]
          exact hhead
        | succ j' =>
          rw [List.getElem?_cons_succ] at hs
          have harith : i + (j' + 1) = (i + 1) + j' := by omega
          rw [harith]
          exact hpre j' s hs

theorem runTools_congr {gen1 gen2 : GenOracle} (h : ∀ i p, gen1 i p = gen2 i p) :
    ∀ (ts : List Tool) (i : Nat) (st : ConvState),
      runTools gen1 ts i st = runTools gen2 ts i st
  | [], _, _ => rfl
  | t :: ts, i, st => by
    rw [runTools, runTools]
    have hp : processTool gen1 i t st = processTool gen2 i t st := by
      simp only [processTool, h]
    rw [hp]
    cases processTool gen2 i t st with
    | error r => rfl
    | ok st1 => exact runTools_congr h ts (i + 1) st1

/-! ## Parser facts -/

theorem scanIter_mem_prop {α : Type} (P : α → Prop) (step : Chars → Option (α × Nat))
    (hstep : ∀ s a n, step s = some (a, n) → P a) :
    ∀ (fuel : Nat) (s : Chars) (a : α), a ∈ scanIter step fuel s → P a
  | 0, _, _, h => absurd h (List.not_mem_nil _)
  | _ + 1, [], _, h => absurd h (List.not_mem_nil _)
  | fuel + 1, c :: rest, a, h => by
    rw [scanIter] at h
    cases hs : step (c :: rest) with
    | some an =>
      obtain ⟨a1, n⟩ := an
      rw [hs] at h
      rcases List.mem_cons.mp h with rfl | hmem
      · exact hstep _ _ _ hs
      · exact scanIter_mem_prop P step hstep fuel _ _ hmem
    | none =>
      rw [hs] at h
      exact scanIter_mem_prop P step hstep fuel rest a h

theorem selectStep_type (s : Chars) (t : Tool) (n : Nat)
    (h : selectStep s = some (t, n)) : t.type = "Select" := by
  rw [selectStep] at h
  cases hm : matchNodeAt selectTypeTag s with
  | none => rw [hm] at h; simp at h
  | some trip =>
    obtain ⟨tid, inner, whole⟩ := trip
    rw [hm] at h
    simp only [Option.some.injEq, Prod.mk.injEq] at h
    rw [← h.1]

theorem filterStep_type (s : Chars) (t : Tool) (n : Nat)
    (h : filterStep s = some (t, n)) : t.type = "Filter" := by
  rw [filterStep] at h
  cases hm : matchNodeAt filterTypeTag s with
  | none => rw [hm] at h; simp at h
  | some trip =>
    obtain ⟨tid, inner, whole⟩ := trip
    rw [hm] at h
    simp only [Option.some.injEq, Prod.mk.injEq] at h
    rw [← h.1]

theorem fst_ite_pair {α β : Type} (c : Prop) [Decidable c] (a : α) (x y : β) :
    (if c then (a, x) else (a, y)).1 = a := by
  by_cases h : c
  · rw [if_pos h]
  · rw [if_neg h]

theorem parse_tools_shape (xml : String) :
    (parse_alteryx_xml xml).1 = [] ∨
    ∃ inner : Chars,
      (parse_alteryx_xml xml).1 =
        List.insertionSort toolR
          (scanIter selectStep inner.length inner ++
            scanIter filterStep inner.length inner) := by
  unfold parse_alteryx_xml
  split
  next => exact Or.inl rfl
  next innerV heq =>
    split
    next => exact Or.inl rfl
    next => exact Or.inr ⟨innerV, fst_ite_pair _ _ _ _⟩

theorem parse_tools_type (xml : String) :
    ∀ t ∈ (parse_alteryx_xml xml).1, t.type = "Select" ∨ t.type = "Filter" := by
  intro t ht
  rcases parse_tools_shape xml with h | ⟨inner, h⟩
  · rw [h] at ht
    exact absurd ht (List.not_mem_nil _)
  · rw [h] at ht
    have hmem := (List.perm_insertionSort toolR _).mem_iff.mp ht
    rcases List.mem_append.mp hmem with hs | hf
    · exact Or.inl (scanIter_mem_prop (fun t => t.type = "Select") selectStep
        (fun s a n hsome => selectStep_type s a n hsome) _ _ _ hs)
    · exact Or.inr (scanIter_mem_prop (fun t => t.type = "Filter") filterStep
        (fun s a n hsome => filterStep_type s a n hsome) _ _ _ hf)

theorem parse_tools_sorted (xml : String) :
    (parse_alteryx_xml xml).1.Pairwise toolR := by
  rcases parse_tools_shape xml with h | ⟨inner, h⟩
  · rw [h]
    exact List.Pairwise.nil
  · rw [h]
    exact List.sorted_insertionSort toolR _

/-! ## Claim theorems: the conversion loop -/

/-- C2: a Predicate (Filter) step leaves the schema untouched, and its
emitted pass-through node selects exactly the pre-step schema's columns,
in schema order, from the previous node's name, followed by the generated
WHERE clause. -/
theorem C2_filter_schema_frame (gen : GenOracle) (i : Nat) (t : Tool) (st st' : ConvState)
    (snip : String) (ht : t.type = "Filter")
    (hg : gen i (filterPrompt st.cteName st.schema t.xml_snippet) = .ok snip)
    (hrun : processTool gen i t st = .ok st') :
    st'.schema = st.schema ∧
    st'.sqlSteps = st.sqlSteps ++
      [filterStepSql (cteNameFor i) (String.intercalate ", " (keys st.schema))
        st.cteName snip] := by
  rw [processTool_filter_ok ht hg] at hrun
  cases hrun
  exact ⟨rfl, rfl⟩

/-- C3: on any parsed tool sequence whose conversion loop succeeds, there
is exactly one emitted CTE per parsed step, the `j`-th emitted node (0-based)
begins `WITH cte_(j+1) AS (`, the parsed steps are in ascending order of the
numeric value of their identifiers, and the generated node names are
pairwise distinct and distinct from `source_data`. -/
theorem C3_chain_structure (xml : String) (gen : GenOracle) (tools : List Tool)
    (pm : String) (st : ConvState)
    (hp : parse_alteryx_xml xml = (tools, pm))
    (hrun : runTools gen tools 0 (initState pm) = .ok st) :
    st.sqlSteps.length = tools.length ∧
    (∀ j s, st.sqlSteps[j]? = some s → (stepHeader j).data <+: s.data) ∧
    tools.Pairwise toolR ∧
    (List.map cteNameFor (List.range tools.length)).Nodup ∧
    (∀ j, cteNameFor j ≠ "source_data") := by
  obtain ⟨news, hsteps, hlen, hpre⟩ := runTools_ok_sqlSteps gen tools 0 _ st hrun
  have hinit : (initState pm).sqlSteps = [] := rfl
  rw [hinit, List.nil_append] at hsteps
  refine ⟨by rw [hsteps, hlen], ?_, ?_, ?_, cteNameFor_ne_source⟩
  · intro j s hs
    rw [hsteps] at hs
    have h := hpre j s hs
    simpa using h
  · have h := parse_tools_sorted xml
    rw [hp] at h
    exact h
  · exact (List.nodup_range _).map cteNameFor_injective

/-- C4: if the conversion loop reaches step `k` (all earlier generation
calls succeeded) and the generation call for step `k` raises, the whole
conversion returns empty SQL and the fixed failure message built only
from step `k`'s identifier and the raised error's text — no fragment
generated for an earlier step appears in the result. -/
theorem C4_generation_failure (gen : GenOracle) (xml : String) (tools : List Tool)
    (pm : String) (k : Nat) (st1 : ConvState) (e : String)
    (hp : parse_alteryx_xml xml = (tools, pm))
    (hk : k < tools.length)
    (hpre : runTools gen (tools.take k) 0 (initState pm) = .ok st1)
    (hkind : (tools.get ⟨k, hk⟩).type = "Select" ∨ (tools.get ⟨k, hk⟩).type = "Filter")
    (hfail : gen k (promptOf (tools.get ⟨k, hk⟩) st1) = .error e) :
    convertOracle gen xml = ("", genFailMsg (tools.get ⟨k, hk⟩).toolId e) := by
  have htake : (tools.take k).length = k := by
    rw [List.length_take]
    omega
  have hrun : runTools gen tools 0 (initState pm) =
      .error ("", genFailMsg (tools.get ⟨k, hk⟩).toolId e) := by
    conv_lhs => rw [← List.take_append_drop k tools]
    rw [runTools_append, hpre, htake, Nat.zero_add]
    rw [List.drop_eq_getElem_cons hk]
    show runTools gen (tools[k] :: List.drop (k + 1) tools) k st1 =
      Except.error ("", genFailMsg (tools.get ⟨k, hk⟩).toolId e)
    rw [show (tools[k]) = tools.get ⟨k, hk⟩ from rfl]
    rw [runTools_cons, processTool_gen_error hkind hfail]
  have hne : ¬ tools.isEmpty = true := by
    cases tools with
    | nil => simp at hk
    | cons a l => simp
  rw [convertOracle]
  rw [hp]
  simp only [hne, if_neg, Bool.false_eq_true, not_false_eq_true]
  rw [hrun]

/-- C5: when the `<AlteryxWorkflow>` container is absent or empty, parsing
recovers into an empty tool list plus the fixed diagnostic, and the whole
conversion returns empty SQL with that diagnostic; the oracle `gen` is
arbitrary and unused. -/
theorem C5_invalid_structure (gen : GenOracle) (xml : String)
    (h : extractWorkflow xml.data = none ∨ extractWorkflow xml.data = some []) :
    parse_alteryx_xml xml = ([], invalidXmlMsg) ∧
    convertOracle gen xml = ("", invalidXmlMsg) := by
  have hp : parse_alteryx_xml xml = ([], invalidXmlMsg) := by
    rw [parse_alteryx_xml]
    rcases h with h | h
    · rw [h]
    · rw [h]
      rfl
  exact ⟨hp, by simp [convertOracle, hp]⟩

/-- C6: the parser only ever extracts Select and Filter nodes — any other
kind vanishes silently — and a document containing only unrecognized nodes
yields empty SQL with the informational no-recognizable-steps message,
for every oracle. -/
theorem C6_unrecognized_dropped :
    (∀ (xml : String), ∀ t ∈ (parse_alteryx_xml xml).1,
        t.type = "Select" ∨ t.type = "Filter") ∧
    parse_alteryx_xml
        "<AlteryxWorkflow><Node ToolID=\"3\" Type=\"Join\"><Expression>x</Expression></Node></AlteryxWorkflow>" =
      ([], noToolsMsg) ∧
    ∀ gen : GenOracle,
      convertOracle gen
          "<AlteryxWorkflow><Node ToolID=\"3\" Type=\"Join\"><Expression>x</Expression></Node></AlteryxWorkflow>" =
        ("", noToolsMsg) := by
  have hp : parse_alteryx_xml
      "<AlteryxWorkflow><Node ToolID=\"3\" Type=\"Join\"><Expression>x</Expression></Node></AlteryxWorkflow>" =
      ([], noToolsMsg) := by decide
  exact ⟨parse_tools_type, hp, fun gen => by simp [convertOracle, hp]⟩

/-- C7: the conversion is deterministic — two runs over the same document
whose oracles return identical responses to identical prompts (regardless
of call position) produce identical results. -/
theorem C7_deterministic (gen1 gen2 : GenOracle) (xml : String)
    (h : ∀ i j p, gen1 i p = gen2 j p) :
    convertOracle gen1 xml = convertOracle gen2 xml := by
  have hc : ∀ i p, gen1 i p = gen2 i p := fun i p => h i i p
  rw [convertOracle, convertOracle, runTools_congr hc]

/-- C9: a descriptor whose kind is neither Select nor Filter makes the
loop return empty SQL and the fixed message naming the identifier and
kind, for every oracle (the call never depends on `gen`); and any tool
emitted by the parser has one of the two supported kinds, so on
parser-produced sequences this branch is unreachable. -/
theorem C9_unsupported_safety :
    (∀ (gen : GenOracle) (i : Nat) (t : Tool) (st : ConvState),
        ¬ t.type = "Select" → ¬ t.type = "Filter" →
        processTool gen i t st = .error ("", unsupportedMsg t)) ∧
    (∀ (xml : String), ∀ t ∈ (parse_alteryx_xml xml).1,
        t.type = "Select" ∨ t.type = "Filter") :=
  ⟨processTool_unsupported, parse_tools_type⟩

/-- C10 witness: the duplicate-output-name facts at a concrete projection
in which two selected fields share the output name `N`. -/
theorem C10_witness :
    (keys (project [("X", "STRING"), ("Y", "FLOAT")]
      [⟨"X", true, some "N"⟩, ⟨"Y", true, some "N"⟩])).Nodup ∧
    (∀ n, n ∈ keys (project [("X", "STRING"), ("Y", "FLOAT")]
        [⟨"X", true, some "N"⟩, ⟨"Y", true, some "N"⟩]) ↔
      n ∈ (([⟨"X", true, some "N"⟩, ⟨"Y", true, some "N"⟩] : List Field).filter
        (·.selected)).map outName) ∧
    (∀ n, lookup (project [("X", "STRING"), ("Y", "FLOAT")]
        [⟨"X", true, some "N"⟩, ⟨"Y", true, some "N"⟩]) n =
      (((([⟨"X", true, some "N"⟩, ⟨"Y", true, some "N"⟩] : List Field).filter
          (·.selected)).filter (fun f => outName f = n)).getLast?).map
        (fun f => dictGet [("X", "STRING"), ("Y", "FLOAT")] f.name "UNKNOWN")) ∧
    (project [("X", "STRING"), ("Y", "FLOAT")]
      [⟨"X", true, some "N"⟩, ⟨"Y", true, some "N"⟩]).length ≤
      (([⟨"X", true, some "N"⟩, ⟨"Y", true, some "N"⟩] : List Field).filter
        (·.selected)).length ∧
    ((project [("X", "STRING"), ("Y", "FLOAT")]
      [⟨"X", true, some "N"⟩, ⟨"Y", true, some "N"⟩]).length =
      (([⟨"X", true, some "N"⟩, ⟨"Y", true, some "N"⟩] : List Field).filter
        (·.selected)).length ↔
      ((([⟨"X", true, some "N"⟩, ⟨"Y", true, some "N"⟩] : List Field).filter
        (·.selected)).map outName).Nodup) :=
  C10_project_duplicates [("X", "STRING"), ("Y", "FLOAT")]
    [⟨"X", true, some "N"⟩, ⟨"Y", true, some "N"⟩]

/-! ## Substitution lemmas (C8) -/

theorem prefix_cons_head {a b : Char} {as bs : Chars}
    (h : List.isPrefixOf (a :: as) (b :: bs) = true) : a = b := by
  rw [List.isPrefixOf_cons₂, Bool.and_eq_true] at h
  exact beq_iff_eq.mp h.1

theorem prefix_cons_tail {a b : Char} {as bs : Chars}
    (h : List.isPrefixOf (a :: as) (b :: bs) = true) : as.isPrefixOf bs = true := by
  rw [List.isPrefixOf_cons₂, Bool.and_eq_true] at h
  exact h.2

theorem pat_head_F {y : Char} {t : Chars} (h : sourcePat.isPrefixOf (y :: t) = true) :
    y = 'F' := by
  rw [show sourcePat = 'F' :: "ROM source_data".data from rfl] at h
  exact (prefix_cons_head h).symm

theorem not_pat_prefix_repl_append (t : Chars) :
    ¬ sourcePat.isPrefixOf (sourceRepl ++ t) = true := by
  intro h
  have hpre : sourcePat <+: sourceRepl ++ t := List.isPrefixOf_iff_prefix.mp h
  have heq := List.prefix_iff_eq_take.mp hpre
  rw [show sourcePat.length = 16 from rfl,
    List.take_append_of_le_length (by decide)] at heq
  exact absurd heq (by decide)

theorem occursIn_append_noF :
    ∀ (r X : Chars), (∀ c ∈ r, c ≠ 'F') →
      occursIn sourcePat (r ++ X) = occursIn sourcePat X
  | [], _, _ => rfl
  | c :: r', X, h => by
    rw [List.cons_append, occursIn]
    have hc : c ≠ 'F' := h c (List.mem_cons_self _ _)
    have hp : sourcePat.isPrefixOf (c :: (r' ++ X)) = false := by
      cases hb : sourcePat.isPrefixOf (c :: (r' ++ X)) with
      | false => rfl
      | true => exact absurd (pat_head_F hb) hc
    rw [hp, Bool.false_or]
    exact occursIn_append_noF r' X (fun d hd => h d (List.mem_cons_of_mem _ hd))

theorem occursIn_repl_append (X : Chars) (hX : occursIn sourcePat X = false) :
    occursIn sourcePat (sourceRepl ++ X) = false := by
  rw [show sourceRepl =
    'F' :: "ROM `your_project.your_dataset.your_initial_table`".data from rfl]
  rw [List.cons_append, occursIn]
  have h1 : sourcePat.isPrefixOf
      ('F' :: ("ROM `your_project.your_dataset.your_initial_table`".data ++ X)) = false := by
    cases hb : sourcePat.isPrefixOf
        ('F' :: ("ROM `your_project.your_dataset.your_initial_table`".data ++ X)) with
    | false => rfl
    | true =>
      exact absurd (show sourcePat.isPrefixOf (sourceRepl ++ X) = true from hb)
        (not_pat_prefix_repl_append X)
  rw [h1, Bool.false_or, occursIn_append_noF _ X (by decide), hX]

theorem pat_drop_head_ne_F :
    ∀ k, k < 16 → 1 ≤ k → (sourcePat.drop k).head? ≠ some 'F' := by
  decide

theorem pat_suffix_aux :
    ∀ (fuel : Nat) (s : Chars) (k : Nat), 1 ≤ k →
      (sourcePat.drop k).isPrefixOf (replaceSourceAux fuel s) = true →
      (sourcePat.drop k).isPrefixOf s = true
  | 0, _, _, _, h => h
  | _ + 1, [], _, _, h => by simpa [replaceSourceAux] using h
  | fuel + 1, c :: rest, k, hk, h => by
    rw [replaceSourceAux] at h
    by_cases hpfx : sourcePat.isPrefixOf (c :: rest) = true
    · rw [if_pos hpfx] at h
      cases hq : sourcePat.drop k with
      | nil => simp
      | cons q0 qt =>
        rw [hq] at h
        have hkfin : k < 16 := by
          by_contra hge
          have hnil : sourcePat.drop k = [] :=
            List.drop_eq_nil_of_le (by rw [show sourcePat.length = 16 from rfl]; omega)
          rw [hq] at hnil
          cases hnil
        have hne : q0 ≠ 'F' := by
          intro hF
          apply pat_drop_head_ne_F k hkfin hk
          rw [hq, hF]
          rfl
        have hF : q0 = 'F' := by
          have h2 : List.isPrefixOf (q0 :: qt)
              ('F' :: ("ROM `your_project.your_dataset.your_initial_table`".data ++
                replaceSourceAux fuel ((c :: rest).drop sourcePat.length))) = true := h
          exact prefix_cons_head h2
        exact absurd hF hne
    · rw [if_neg hpfx] at h
      cases hq : sourcePat.drop k with
      | nil => simp
      | cons q0 qt =>
        rw [hq] at h
        have hhd : q0 = c := prefix_cons_head h
        have htl : qt.isPrefixOf (replaceSourceAux fuel rest) = true := prefix_cons_tail h
        have hqt : sourcePat.drop (k + 1) = qt := by
          rw [← List.tail_drop, hq, List.tail_cons]
        have hrest := pat_suffix_aux fuel rest (k + 1) (by omega) (by rw [hqt]; exact htl)
        rw [hqt] at hrest
        rw [List.isPrefixOf_cons₂]
        simp [hhd, hrest]

theorem occursIn_replaceSourceAux :
    ∀ (fuel : Nat) (s : Chars), s.length ≤ fuel →
      occursIn sourcePat (replaceSourceAux fuel s) = false
  | 0, s, h => by
    have hnil : s = [] := List.eq_nil_of_length_eq_zero (by omega)
    subst hnil
    decide
  | _ + 1, [], _ => by
    show occursIn sourcePat [] = false
    decide
  | fuel + 1, c :: rest, h => by
    have hlen : rest.length ≤ fuel := by
      have : (c :: rest).length = rest.length + 1 := rfl
      omega
    rw [replaceSourceAux]
    by_cases hpfx : sourcePat.isPrefixOf (c :: rest) = true
    · rw [if_pos hpfx]
      apply occursIn_repl_append
      apply occursIn_replaceSourceAux fuel
      rw [List.length_drop, show sourcePat.length = 16 from rfl, List.length_cons]
      omega
    · rw [if_neg hpfx, occursIn]
      have htail : occursIn sourcePat (replaceSourceAux fuel rest) = false :=
        occursIn_replaceSourceAux fuel rest hlen
      have hhead : sourcePat.isPrefixOf (c :: replaceSourceAux fuel rest) = false := by
        cases hb : sourcePat.isPrefixOf (c :: replaceSourceAux fuel rest) with
        | false => rfl
        | true =>
          have hcF : c = 'F' := pat_head_F hb
          have htl : ("ROM source_data".data).isPrefixOf
              (replaceSourceAux fuel rest) = true := by
            rw [show sourcePat = 'F' :: "ROM source_data".data from rfl] at hb
            exact prefix_cons_tail hb
          have hrest : ("ROM source_data".data).isPrefixOf rest = true := by
            have := pat_suffix_aux fuel rest 1 (by omega)
              (by rw [show sourcePat.drop 1 = "ROM source_data".data from rfl]; exact htl)
            rwa [show sourcePat.drop 1 = "ROM source_data".data from rfl] at this
          have hcontr : sourcePat.isPrefixOf (c :: rest) = true := by
            rw [hcF, show sourcePat = 'F' :: "ROM source_data".data from rfl,
              List.isPrefixOf_cons₂]
            simp [hrest]
          exact absurd hcontr hpfx
      rw [hhead, htail]
      rfl

/-- Every occurrence of the placeholder source reference is replaced:
none survives the substitution. -/
theorem occursIn_replaceSource (s : Chars) :
    occursIn sourcePat (replaceSource s) = false :=
  occursIn_replaceSourceAux s.length s (Nat.le_refl _)

/-! ## Claim theorems: final assembly -/

/-- C8 (amended): the placeholder substitution is applied to the entire
joined chain of node texts — generation-service output spliced into node
bodies included, not only the first node's FROM target — replacing every
occurrence of the literal `FROM source_data`, so that no occurrence of
that literal survives in the substituted portion. -/
theorem C8_substitution_global :
    (∀ st : ConvState, ¬ st.sqlSteps.isEmpty = true →
      (assemble st).1 = viewHeader ++
        (⟨replaceSource (String.intercalate "\n\n" st.sqlSteps).data⟩ : String) ++
        "\n\nSELECT\n    " ++ String.intercalate ", " (keys st.schema) ++
        "\nFROM\n    " ++ st.cteName ++ ";\n") ∧
    (∀ s : Chars, occursIn sourcePat (replaceSource s) = false) := by
  constructor
  · intro st h
    rw [assemble, if_neg h]
  · exact occursIn_replaceSource

set_option maxRecDepth 8192 in
/-- C8 counterexample: the claim as stated says the substitution alters
only the first node's FROM target and never generation-service output
spliced into node bodies.  With a generated WHERE fragment that itself
contains `FROM source_data`, the emitted script no longer contains the
fragment's original text — its occurrence was substituted too. -/
theorem C8_counterexample :
    occursIn "(SELECT y FROM source_data)".data
        ((convertOracle (fun _ _ => Except.ok "WHERE x IN (SELECT y FROM source_data)")
          "<AlteryxWorkflow><Node ToolID=\"7\" Type=\"Filter\"><Expression>x</Expression></Node></AlteryxWorkflow>").1).data
      = false ∧
    occursIn "(SELECT y FROM `your_project.your_dataset.your_initial_table`)".data
        ((convertOracle (fun _ _ => Except.ok "WHERE x IN (SELECT y FROM source_data)")
          "<AlteryxWorkflow><Node ToolID=\"7\" Type=\"Filter\"><Expression>x</Expression></Node></AlteryxWorkflow>").1).data
      = true := by
  constructor
  · decide
  · decide

/-- C8 witness: the global-substitution shape at a concrete assembled
state, plus no-occurrence-left at a concrete string. -/
theorem C8_witness :
    (assemble ⟨seedSchema, "cte_1", ["WITH cte_1 AS (\nSELECT 1\nFROM source_data\n)"],
      ["m"]⟩).1 = viewHeader ++
      (⟨replaceSource (String.intercalate "\n\n"
        ["WITH cte_1 AS (\nSELECT 1\nFROM source_data\n)"]).data⟩ : String) ++
      "\n\nSELECT\n    " ++ String.intercalate ", " (keys seedSchema) ++
      "\nFROM\n    " ++ "cte_1" ++ ";\n" ∧
    occursIn sourcePat (replaceSource "ab FROM source_data cd".data) = false :=
  ⟨C8_substitution_global.1 _ (by decide),
   C8_substitution_global.2 "ab FROM source_data cd".data⟩

/-! ## Witnesses -/

/-- C2 witness: a concrete Filter step. -/
theorem C2_witness :
    (⟨seedSchema, "cte_1",
      ["WITH cte_1 AS (\nSELECT\n    OrderID, CustomerName, ProductCategory, SalesAmount\nFROM source_data\nWHERE z\n)"],
      ["m0", filterToolMsg "8"]⟩ : ConvState).schema = (initState "m0").schema ∧
    (⟨seedSchema, "cte_1",
      ["WITH cte_1 AS (\nSELECT\n    OrderID, CustomerName, ProductCategory, SalesAmount\nFROM source_data\nWHERE z\n)"],
      ["m0", filterToolMsg "8"]⟩ : ConvState).sqlSteps =
      (initState "m0").sqlSteps ++
        [filterStepSql (cteNameFor 0)
          (String.intercalate ", " (keys (initState "m0").schema))
          (initState "m0").cteName "WHERE z"] :=
  C2_filter_schema_frame (fun _ _ => Except.ok "WHERE z") 0
    ⟨"Filter", "8", [], some "z", "snip"⟩ (initState "m0") _ "WHERE z" rfl rfl rfl

/-- C3 witness: a concrete one-step parsed document. -/
theorem C3_witness :
    (⟨seedSchema, "cte_1",
      ["WITH cte_1 AS (\nSELECT\n    OrderID, CustomerName, ProductCategory, SalesAmount\nFROM source_data\nWHERE a\n)"],
      [parsedOkMsg, filterToolMsg "2"]⟩ : ConvState).sqlSteps.length =
      ([⟨"Filter", "2", [], some "a",
        "<Node ToolID=\"2\" Type=\"Filter\"><Expression>a</Expression></Node>"⟩] : List Tool).length ∧
    (∀ j s, (⟨seedSchema, "cte_1",
      ["WITH cte_1 AS (\nSELECT\n    OrderID, CustomerName, ProductCategory, SalesAmount\nFROM source_data\nWHERE a\n)"],
      [parsedOkMsg, filterToolMsg "2"]⟩ : ConvState).sqlSteps[j]? = some s →
      (stepHeader j).data <+: s.data) ∧
    ([⟨"Filter", "2", [], some "a",
      "<Node ToolID=\"2\" Type=\"Filter\"><Expression>a</Expression></Node>"⟩] : List Tool).Pairwise toolR ∧
    (List.map cteNameFor (List.range ([⟨"Filter", "2", [], some "a",
      "<Node ToolID=\"2\" Type=\"Filter\"><Expression>a</Expression></Node>"⟩] : List Tool).length)).Nodup ∧
    (∀ j, cteNameFor j ≠ "source_data") :=
  C3_chain_structure
    "<AlteryxWorkflow><Node ToolID=\"2\" Type=\"Filter\"><Expression>a</Expression></Node></AlteryxWorkflow>"
    (fun _ _ => Except.ok "WHERE a") _ _ _ (by decide) rfl

/-- C4 witness: a generation failure at the first step. -/
theorem C4_witness :
    convertOracle (fun _ _ => Except.error "boom")
      "<AlteryxWorkflow><Node ToolID=\"4\" Type=\"Filter\"><Expression>y</Expression></Node></AlteryxWorkflow>" =
      ("", genFailMsg "4" "boom") :=
  C4_generation_failure (fun _ _ => Except.error "boom")
    "<AlteryxWorkflow><Node ToolID=\"4\" Type=\"Filter\"><Expression>y</Expression></Node></AlteryxWorkflow>"
    [⟨"Filter", "4", [], some "y",
      "<Node ToolID=\"4\" Type=\"Filter\"><Expression>y</Expression></Node>"⟩]
    parsedOkMsg 0 (initState parsedOkMsg) "boom" (by decide) (by decide) rfl (Or.inr rfl) rfl

/-- C5 witness: a document with no workflow container. -/
theorem C5_witness :
    parse_alteryx_xml "hello" = ([], invalidXmlMsg) ∧
    convertOracle (fun _ _ => Except.ok "X") "hello" = ("", invalidXmlMsg) :=
  C5_invalid_structure (fun _ _ => Except.ok "X") "hello" (Or.inl (by decide))

/-- C6 witness: a parsed Select tool has a supported kind. -/
theorem C6_witness :
    ({ type := "Select", toolId := "1", fields := [], expression := none,
       xml_snippet := "<Node ToolID=\"1\" Type=\"Select\"></Node>" } : Tool).type = "Select" ∨
    ({ type := "Select", toolId := "1", fields := [], expression := none,
       xml_snippet := "<Node ToolID=\"1\" Type=\"Select\"></Node>" } : Tool).type = "Filter" :=
  C6_unrecognized_dropped.1
    "<AlteryxWorkflow><Node ToolID=\"1\" Type=\"Select\"></Node></AlteryxWorkflow>" _ (by decide)

/-- C7 witness: determinism at a concrete document and oracle. -/
theorem C7_witness :
    convertOracle (fun _ p => if p.isEmpty then Except.error "empty" else Except.ok "SELECT 1")
        "<AlteryxWorkflow><Node ToolID=\"2\" Type=\"Filter\"><Expression>a</Expression></Node></AlteryxWorkflow>" =
      convertOracle (fun _ p => if p.isEmpty then Except.error "empty" else Except.ok "SELECT 1")
        "<AlteryxWorkflow><Node ToolID=\"2\" Type=\"Filter\"><Expression>a</Expression></Node></AlteryxWorkflow>" :=
  C7_deterministic _ _ _ (fun _ _ _ => rfl)

/-- C9 witness: the unsupported branch at a concrete Join tool, and a concrete parsed tool is supported. -/
theorem C9_witness :
    processTool (fun _ _ => Except.ok "") 0
      (⟨"Join", "9", [], none, ""⟩ : Tool) (initState "m") =
      .error ("", unsupportedMsg ⟨"Join", "9", [], none, ""⟩) ∧
    (({ type := "Select", toolId := "5", fields := [], expression := none,
        xml_snippet := "<Node ToolID=\"5\" Type=\"Select\"></Node>" } : Tool).type = "Select" ∨
     ({ type := "Select", toolId := "5", fields := [], expression := none,
        xml_snippet := "<Node ToolID=\"5\" Type=\"Select\"></Node>" } : Tool).type = "Filter") :=
  ⟨C9_unsupported_safety.1 _ 0 _ (initState "m") (by decide) (by decide),
   C9_unsupported_safety.2
     "<AlteryxWorkflow><Node ToolID=\"5\" Type=\"Select\"></Node></AlteryxWorkflow>" _ (by decide)⟩

end Alteryx
